import Mathlib

/-!
Verification of the eventstream-router core (src/eventstream-router/app.ts)
against its natural-language specification.

The TypeScript source is shallowly embedded: each embedded definition is
translated from the function in app.ts named in its doc comment.  Promise
settlement and the JS event loop are made explicit: a value of type
`WorkerRes` records whether the worker returned normally, threw
synchronously, or returned a promise that later rejected; the per-route
`ready` promise is represented by the settled outcome of the one-time
`init()` call.
-/

namespace EventstreamRouter

/-- Time constants from src/millis.ts (milliseconds). -/
def SECOND : Int := 1000

/-- MINUTE from src/millis.ts (milliseconds). -/
def MINUTE : Int := 60 * SECOND

/-- One day in milliseconds, as used by the bot date subtract(7, days) call. -/
def DAY : Int := 24 * 60 * MINUTE

/-- RecentChangeStreamEvent: the fields of the parsed stream message that
app.ts reads (meta.domain, timestamp, type, title, wiki, comment). -/
structure MEvent where
  wiki : String
  etype : String
  title : String
  comment : String
  timestamp : Int
  meta_domain : String
deriving DecidableEq, Repr

/-- Outcome of calling a route filter: a boolean, or a synchronous throw. -/
inductive FilterRes where
  | ok (b : Bool)
  | thrown (e : String)
deriving DecidableEq, Repr

/-- Outcome of calling a route worker: normal return, synchronous throw, or
a returned promise that rejects (asynchronous error). -/
inductive WorkerRes where
  | done
  | thrown (e : String)
  | rejected (e : String)
deriving DecidableEq, Repr

/-- The one-time init() of a route: absent, or present with its settled
outcome (the outcome of Promise.resolve applied to the value of init). -/
inductive InitSpec where
  | noInit
  | initOk
  | initFail (e : String)
deriving DecidableEq, Repr

/-- A validated route as used by run(): name, init behaviour, filter and
worker behaviour per event. -/
structure RouteM where
  name : String
  init : InitSpec
  filter : MEvent → FilterRes
  worker : MEvent → WorkerRes

/-- The settled state of the per-route ready promise built in
RouteValidator.validate: it resolves unless init() rejects (app.ts 61-74). -/
def routeReady (r : RouteM) : Bool :=
  match r.init with
  | .initFail _ => false
  | _ => true

/-- Whether validate logs an error with the route name for the init failure
(the rejection handler calls logError(err, route.name), app.ts 69-72). -/
def initLogged (r : RouteM) : Bool :=
  match r.init with
  | .initFail _ => true
  | _ => false

/-- Number of times validate invokes init() for this route: once when it is
a function, zero times otherwise (app.ts 62-73); no other call site exists. -/
def initCalls (r : RouteM) : Nat :=
  match r.init with
  | .noInit => 0
  | _ => 1

/-- What happened to one route for one dispatched event: whether the filter
and worker ran, whether the routing decision was logged, which error was
caught and logged with the route name by the try/catch, and which error
escaped uncaught (a discarded rejected worker promise). -/
structure RouteOutcome where
  filterInvoked : Bool
  workerInvoked : Bool
  routingLogged : Bool
  caughtLogged : Option String
  uncaughtAsync : Option String
deriving DecidableEq, Repr

/-- Outcome of a route whose ready promise is rejected: the then-callback
never runs, so nothing is invoked (app.ts 185). -/
def skipOutcome : RouteOutcome := ⟨false, false, false, none, none⟩

/-- The body of the per-route dispatch in stream.onmessage (app.ts 182-195):
route.ready.then of a callback doing
try: if filter(data) then addToRouterLog and worker(data), catch: logError.
The try/catch captures synchronous throws only; a rejected promise returned
by the worker is discarded without being caught or logged. -/
def dispatchRoute (r : RouteM) (e : MEvent) : RouteOutcome :=
  if routeReady r = false then skipOutcome
  else
    match r.filter e with
    | .thrown err => ⟨true, false, false, some err, none⟩
    | .ok false => ⟨true, false, false, none, none⟩
    | .ok true =>
      match r.worker e with
      | .done => ⟨true, true, true, none, none⟩
      | .thrown err => ⟨true, true, true, some err, none⟩
      | .rejected err => ⟨true, true, true, none, some err⟩

/-- The for-loop over routes in stream.onmessage (app.ts 182-195): each
route gets its own independent dispatch of the event. -/
def dispatchEvent (routes : List RouteM) (e : MEvent) : List RouteOutcome :=
  routes.map (fun r => dispatchRoute r e)

/-- The stream.onmessage handler (app.ts 175-196): parse, drop canary
events before touching anything else, otherwise record the event timestamp
into lastSeen.ts and dispatch to every route.  The cursor is the lastSeen.ts
field (seconds), absent when never set. -/
def onMessage (routes : List RouteM) (cursor : Option Int) (e : MEvent) :
    Option Int × List RouteOutcome :=
  if e.meta_domain = "canary" then (cursor, [])
  else (some e.timestamp, dispatchEvent routes e)

/-- Processing of a sequence of inbound messages, threading the cursor. -/
def processEvents (routes : List RouteM) :
    Option Int → List MEvent → Option Int × List (List RouteOutcome)
  | c, [] => (c, [])
  | c, e :: rest =>
    let r1 := onMessage routes c e
    let r2 := processEvents routes r1.1 rest
    (r2.1, r1.2 :: r2.2)

/-- The health-check predicate from streamWithRoutes (app.ts 235):
lastSeen.get() converts the stored seconds to milliseconds, and the tick
restarts when lastSeen.get().add(2, minutes).isBefore(new Date()), i.e.
when tsSec * 1000 + 2 * MINUTE is strictly before the current time. -/
def healthTickFires (tsSec : Int) (nowMs : Int) : Bool :=
  tsSec * 1000 + 2 * MINUTE < nowMs

/-- Number of health ticks that fire on a schedule of
(current time, last seen seconds) pairs. -/
def fireCount (ticks : List (Int × Int)) : Nat :=
  (ticks.filter (fun p => healthTickFires p.2 p.1)).length

/-- The resume-point computation at the top of run() (app.ts 135-139):
ts is lastSeen.get(), a date built from the stored seconds (absent or
invalid is modelled as none); tsUsable is ts.isValid() together with
now.subtract(7, days).isBefore(ts); since is ts when not argv.fromNow and
tsUsable, else a fresh current date.  The result is in milliseconds. -/
def resumePoint (fromNow : Bool) (storedSec : Option Int) (nowMs : Int) : Int :=
  match storedSec with
  | none => nowMs
  | some ts => if fromNow = false ∧ nowMs - 7 * DAY < ts * 1000 then ts * 1000 else nowMs

/-- The resume policy in the words of the spec: resume from the cursor
exactly when it is valid, no older than 7 days (age at most 7 days), and no
fresh start was requested; otherwise from now. -/
def claimResume (fromNow : Bool) (storedSec : Option Int) (nowMs : Int) : Int :=
  match storedSec with
  | none => nowMs
  | some ts => if fromNow = false ∧ nowMs - ts * 1000 ≤ 7 * DAY then ts * 1000 else nowMs

/-- The resume policy amended to the strict age bound the code implements:
resume from the cursor exactly when it is valid, strictly younger than 7
days, and no fresh start was requested. -/
def claimResumeStrict (fromNow : Bool) (storedSec : Option Int) (nowMs : Int) : Int :=
  match storedSec with
  | none => nowMs
  | some ts => if fromNow = false ∧ nowMs - ts * 1000 < 7 * DAY then ts * 1000 else nowMs

/-- The observable fields of a route class instance that
RouteValidator.validate inspects (app.ts 46-77): the name and whether the
filter, worker and init properties are functions. -/
structure RouteFields where
  name : String
  filterFn : Bool
  workerFn : Bool
  initFn : Bool
deriving DecidableEq, Repr

/-- Whether validate leaves isValid true for the instance (app.ts 53-76):
only a non-callable filter or worker sets isValid to false; an empty name
is logged (app.ts 53-55) but does not affect isValid. -/
def validateKeeps (r : RouteFields) : Bool :=
  r.filterFn && r.workerFn

/-- Whether validate logs the missing-name error for the instance
(app.ts 53-55, the JS falsiness test on route.name). -/
def validateLogsName (r : RouteFields) : Bool :=
  r.name = ""

/-- The active route set built in streamWithRoutes (app.ts 222-226):
map validate over the specifications, keep those with isValid. -/
def activeRoutes (rs : List RouteFields) : List RouteFields :=
  rs.filter validateKeeps

/-- Route retention in the words of the spec: only specifications with a
non-empty name and callable filter and worker are retained. -/
def claimKeeps (r : RouteFields) : Bool :=
  (decide (r.name ≠ "")) && r.filterFn && r.workerFn

/-- The active route set as claimed by the spec. -/
def claimActiveRoutes (rs : List RouteFields) : List RouteFields :=
  rs.filter claimKeeps

/-- State of the module-level stream variable (app.ts 130) together with
the set of still-open connections and a supply of fresh connection ids. -/
structure ConnState where
  stream : Option Nat
  live : List Nat
  nextId : Nat
deriving DecidableEq, Repr

/-- Initial state: stream undefined, no open connection. -/
def initConn : ConnState := ⟨none, [], 0⟩

/-- One invocation of run() as far as the connection is concerned
(app.ts 141-150): if stream is set, close it (remove it from the open set),
then assign a new EventSource to stream and open it.  Every restart path
(initial start, rate-limit backoff, health monitor) goes through start()
into run(), so every connection step is this one. -/
def runStep (s : ConnState) : ConnState :=
  let afterClose : ConnState :=
    match s.stream with
    | some c => ⟨s.stream, s.live.erase c, s.nextId⟩
    | none => s
  ⟨some afterClose.nextId, afterClose.live ++ [afterClose.nextId], afterClose.nextId + 1⟩

/-- The fields of a transport error event that stream.onerror inspects
(app.ts 158-173): type, message (possibly absent) and status. -/
structure ErrorEvent where
  etype : String
  message : Option String
  status : Option Int
deriving DecidableEq, Repr

/-- What stream.onerror does with one error event: whether it logs the
error, and the backoff delay in milliseconds after which start() is called
again, when any. -/
structure ErrorHandling where
  logged : Bool
  restartDelayMs : Option Int
deriving DecidableEq, Repr

/-- The stream.onerror handler (app.ts 158-173): an event of type error
with message undefined is the benign periodic disconnect, returned from
without logging or restart; every other event is logged, and status 429
additionally schedules start() after a 5 second sleep. -/
def onError (evt : ErrorEvent) : ErrorHandling :=
  if evt.etype = "error" ∧ evt.message = none then ⟨false, none⟩
  else ⟨true, if evt.status = some 429 then some (5 * SECOND) else none⟩

/-- The error policy in the order the claim states it: status 429 first
(backoff and restart), then the benign no-message disconnect (no restart),
then everything else (logged, no restart). -/
def claimOnError (evt : ErrorEvent) : ErrorHandling :=
  if evt.status = some 429 then ⟨true, some (5 * SECOND)⟩
  else if evt.etype = "error" ∧ evt.message = none then ⟨false, none⟩
  else ⟨true, none⟩

/-- Result of pageFromCategoryEvent (app.ts 256-266). -/
structure CatMatch where
  title : String
  added : Bool
  removed : Bool
deriving DecidableEq, Repr

/-- Line terminators that the dot of a JS regex does not match. -/
def isLineTerm (c : Char) : Bool :=
  c == '\n' || c == '\r' || c == '\u2028' || c == '\u2029'

/-- Whether the first list is an initial run of the second. -/
def leadsWith : List Char → List Char → Bool
  | [], _ => true
  | _ :: _, [] => false
  | p :: ps, s :: ss => p == s && leadsWith ps ss

/-- The characters the regex expects after the title for an addition. -/
def addedTerm : List Char := "]] added".toList

/-- The characters the regex expects after the title for a removal. -/
def removedTerm : List Char := "]] removed".toList

/-- The lazy group of the regex in pageFromCategoryEvent: starting after
the literal prefix, the engine first tries the continuation
]] (added|removed) at the current position, and only on failure lets the
lazy dot consume one more character, which must not be a line terminator.
Returns the shortest matching title and whether the added branch matched. -/
def lazyScan : List Char → Option (List Char × Bool)
  | [] =>
    if leadsWith addedTerm [] then some ([], true)
    else if leadsWith removedTerm [] then some ([], false)
    else none
  | c :: rest =>
    if leadsWith addedTerm (c :: rest) then some ([], true)
    else if leadsWith removedTerm (c :: rest) then some ([], false)
    else if isLineTerm c then none
    else
      match lazyScan rest with
      | none => none
      | some (t, b) => some (c :: t, b)

/-- pageFromCategoryEvent (app.ts 256-266): match the comment against
the anchored pattern of literal open brackets and colon, a lazy dot group,
then ]] followed by added or removed; on success the title is the captured
group, added and removed report which word matched; otherwise null. -/
def pageFromCategoryEvent (comment : String) : Option CatMatch :=
  let cs := comment.toList
  if leadsWith ("[[:".toList) cs then
    match lazyScan (cs.drop 3) with
    | some (t, b) => some ⟨String.mk t, b, !b⟩
    | none => none
  else none

/-- addToRouterLog (app.ts 119-128): the routing-decision log line, with a
category note only for categorize events whose comment matches the
pattern. -/
def addToRouterLog (routeName : String) (e : MEvent) : String :=
  let catNote :=
    if e.etype = "categorize" then
      match pageFromCategoryEvent e.comment with
      | some p => (if p.added then "+" else "–") ++ p.title ++ "@"
      | none => ""
    else ""
  "Routing to " ++ routeName ++ ": " ++ catNote ++ e.title ++ "@" ++ e.wiki

/-! Helper lemmas shared by several claim theorems. -/

/-- The per-event outcome matrix of a message sequence is a pure function
of each event and each route: the cursor state and anything that happened
on earlier events or other routes does not enter it. -/
lemma processEvents_outcomes (routes : List RouteM) (c : Option Int) (es : List MEvent) :
    (processEvents routes c es).2 =
      es.map (fun e => if e.meta_domain = "canary" then [] else dispatchEvent routes e) := by
  induction es generalizing c with
  | nil => rfl
  | cons e rest ih =>
    by_cases h : e.meta_domain = "canary" <;>
      simp [processEvents, onMessage, h, ih]

/-- A run of canary-only messages leaves the in-memory cursor unchanged. -/
lemma processEvents_cursor_all_canary (routes : List RouteM) (c : Option Int)
    (es : List MEvent) (h : ∀ e ∈ es, e.meta_domain = "canary") :
    (processEvents routes c es).1 = c := by
  induction es generalizing c with
  | nil => rfl
  | cons e rest ih =>
    have he : e.meta_domain = "canary" := h e (by simp)
    have hrest : ∀ e2 ∈ rest, e2.meta_domain = "canary" := fun e2 h2 => h e2 (by simp [h2])
    simp [processEvents, onMessage, he, ih c hrest]

/-- C1 counterexample: a ready route whose worker returns a rejected
promise.  The dispatch loop invokes the worker, but the rejection is
neither caught nor logged with the route name: it escapes the try/catch
as an unhandled rejection, contrary to the claim that asynchronous errors
are caught and logged. -/
theorem C1_counterexample :
    (dispatchRoute
        ⟨"alpha", InitSpec.initOk, fun _ => FilterRes.ok true,
          fun _ => WorkerRes.rejected "boom"⟩
        ⟨"enwiki", "edit", "Title", "c", 100, "en.wikipedia.org"⟩).workerInvoked = true
    ∧ (dispatchRoute
        ⟨"alpha", InitSpec.initOk, fun _ => FilterRes.ok true,
          fun _ => WorkerRes.rejected "boom"⟩
        ⟨"enwiki", "edit", "Title", "c", 100, "en.wikipedia.org"⟩).caughtLogged = none
    ∧ (dispatchRoute
        ⟨"alpha", InitSpec.initOk, fun _ => FilterRes.ok true,
          fun _ => WorkerRes.rejected "boom"⟩
        ⟨"enwiki", "edit", "Title", "c", 100, "en.wikipedia.org"⟩).uncaughtAsync = some "boom" := by
  exact ⟨rfl, rfl, rfl⟩

/-- C1 (amended): synchronous errors thrown by the filter or the worker of
a ready route are caught and logged with the route name, and never escape;
a rejected promise returned by an async worker is not caught and not
logged, escaping as an unhandled rejection; in every case the outcome
matrix of a message sequence is a pure per-event, per-route function, so an
error in one route affects neither the other routes on the same event nor
any route on later events. -/
theorem C1_error_isolation (r : RouteM) (e : MEvent) (err : String)
    (hready : routeReady r = true) :
    (r.filter e = FilterRes.thrown err →
        dispatchRoute r e = ⟨true, false, false, some err, none⟩)
    ∧ (r.filter e = FilterRes.ok true → r.worker e = WorkerRes.thrown err →
        dispatchRoute r e = ⟨true, true, true, some err, none⟩)
    ∧ (r.filter e = FilterRes.ok true → r.worker e = WorkerRes.rejected err →
        dispatchRoute r e = ⟨true, true, true, none, some err⟩)
    ∧ (∀ (routes : List RouteM) (c : Option Int) (es : List MEvent),
        (processEvents routes c es).2 =
          es.map (fun ev => if ev.meta_domain = "canary" then []
            else routes.map (fun q => dispatchRoute q ev))) := by
  refine ⟨?_, ?_, ?_, ?_⟩
  · intro hf
    simp [dispatchRoute, hready, hf]
  · intro hf hw
    simp [dispatchRoute, hready, hf, hw]
  · intro hf hw
    simp [dispatchRoute, hready, hf, hw]
  · intro routes c es
    simpa [dispatchEvent] using processEvents_outcomes routes c es

/-- Witness for C1: a concrete ready route whose filter throws is caught
and logged with the error attached. -/
theorem C1_witness :
    dispatchRoute
        ⟨"alpha", InitSpec.initOk, fun _ => FilterRes.thrown "bang",
          fun _ => WorkerRes.done⟩
        ⟨"enwiki", "edit", "Title", "c", 100, "en.wikipedia.org"⟩
      = ⟨true, false, false, some "bang", none⟩ :=
  (C1_error_isolation
      ⟨"alpha", InitSpec.initOk, fun _ => FilterRes.thrown "bang",
        fun _ => WorkerRes.done⟩
      ⟨"enwiki", "edit", "Title", "c", 100, "en.wikipedia.org"⟩
      "bang" rfl).1 rfl

/-- C2: an inbound message whose meta domain is canary is discarded by
stream.onmessage before any dispatch: no filter or worker of any route is
invoked, and the handler leaves the state as it was. -/
theorem C2_canary_never_dispatched (routes : List RouteM) (cursor : Option Int)
    (e : MEvent) (h : e.meta_domain = "canary") :
    onMessage routes cursor e = (cursor, []) := by
  simp [onMessage, h]

/-- Witness for C2 at a concrete canary event and a concrete route. -/
theorem C2_witness :
    onMessage
        [⟨"beta", InitSpec.noInit, fun _ => FilterRes.ok true, fun _ => WorkerRes.done⟩]
        (some 100)
        ⟨"enwiki", "edit", "Title", "c", 102, "canary"⟩
      = (some 100, []) :=
  C2_canary_never_dispatched _ _ _ rfl

/-- C5: the initializer of a route is invoked exactly once by validate when
present; the ready signal resolves exactly when init is absent or
succeeded; a rejecting init marks the route permanently failed with the
route name logged; a route whose ready signal is rejected is never
dispatched any event; and each position of the dispatch list depends only
on the route at that position, so other valid routes receive events
normally. -/
theorem C5_init_once_and_gating (r : RouteM) (e : MEvent) (err : String) :
    initCalls r ≤ 1
    ∧ (r.init ≠ InitSpec.noInit → initCalls r = 1)
    ∧ (routeReady r = true ↔ ∀ s, r.init ≠ InitSpec.initFail s)
    ∧ (r.init = InitSpec.initFail err → routeReady r = false ∧ initLogged r = true)
    ∧ (routeReady r = false → dispatchRoute r e = skipOutcome)
    ∧ (∀ (routes : List RouteM) (i : Nat) (e2 : MEvent),
        (dispatchEvent routes e2)[i]? = (routes[i]?).map (fun q => dispatchRoute q e2)) := by
  refine ⟨?_, ?_, ?_, ?_, ?_, ?_⟩
  · cases hi : r.init <;> simp [initCalls, hi]
  · intro h
    cases hi : r.init <;> simp [initCalls, hi] at h ⊢
  · cases hi : r.init <;> simp [routeReady, hi]
  · intro hi
    simp [routeReady, initLogged, hi]
  · intro h
    simp [dispatchRoute, h]
  · intro routes i e2
    simp [dispatchEvent, List.getElem?_map]

/-- Witness for C5: a concrete route whose init rejects is not ready, has
the failure logged, and is skipped on a concrete event. -/
theorem C5_witness :
    routeReady ⟨"gamma", InitSpec.initFail "io", fun _ => FilterRes.ok true,
        fun _ => WorkerRes.done⟩ = false
    ∧ initLogged ⟨"gamma", InitSpec.initFail "io", fun _ => FilterRes.ok true,
        fun _ => WorkerRes.done⟩ = true
    ∧ dispatchRoute ⟨"gamma", InitSpec.initFail "io", fun _ => FilterRes.ok true,
        fun _ => WorkerRes.done⟩
        ⟨"enwiki", "edit", "Title", "c", 100, "en.wikipedia.org"⟩ = skipOutcome := by
  refine ⟨?_, ?_, ?_⟩
  · exact ((C5_init_once_and_gating
      ⟨"gamma", InitSpec.initFail "io", fun _ => FilterRes.ok true, fun _ => WorkerRes.done⟩
      ⟨"enwiki", "edit", "Title", "c", 100, "en.wikipedia.org"⟩ "io").2.2.2.1 rfl).1
  · exact ((C5_init_once_and_gating
      ⟨"gamma", InitSpec.initFail "io", fun _ => FilterRes.ok true, fun _ => WorkerRes.done⟩
      ⟨"enwiki", "edit", "Title", "c", 100, "en.wikipedia.org"⟩ "io").2.2.2.1 rfl).2
  · exact (C5_init_once_and_gating
      ⟨"gamma", InitSpec.initFail "io", fun _ => FilterRes.ok true, fun _ => WorkerRes.done⟩
      ⟨"enwiki", "edit", "Title", "c", 100, "en.wikipedia.org"⟩ "io").2.2.2.2.1 rfl

/-- C10: canary messages leave the in-memory cursor unchanged (the handler
returns before lastSeen.ts is assigned), only a non-canary message advances
it to its timestamp, and a cursor left at L makes the health tick fire as
soon as the current time strictly exceeds L seconds plus the two-minute
grace period, so a connection delivering only canary traffic is treated as
stalled. -/
theorem C10_canary_keeps_cursor (routes : List RouteM) (cursor : Option Int)
    (es : List MEvent) (e : MEvent) (L nowMs : Int)
    (hall : ∀ ev ∈ es, ev.meta_domain = "canary") :
    (processEvents routes cursor es).1 = cursor
    ∧ (e.meta_domain ≠ "canary" → (onMessage routes cursor e).1 = some e.timestamp)
    ∧ (L * 1000 + 2 * MINUTE < nowMs → healthTickFires L nowMs = true) := by
  refine ⟨processEvents_cursor_all_canary routes cursor es hall, ?_, ?_⟩
  · intro h
    simp [onMessage, h]
  · intro h
    simpa [healthTickFires] using h

/-- Witness for C10: two concrete canary events leave the cursor at 100
seconds, and the tick at 100 s + 2 min + 1 ms fires. -/
theorem C10_witness :
    (processEvents
        [⟨"beta", InitSpec.noInit, fun _ => FilterRes.ok true, fun _ => WorkerRes.done⟩]
        (some 100)
        [⟨"enwiki", "edit", "A", "c", 102, "canary"⟩,
         ⟨"enwiki", "log", "B", "c", 103, "canary"⟩]).1 = some 100
    ∧ healthTickFires 100 (100 * 1000 + 2 * MINUTE + 1) = true := by
  refine ⟨?_, ?_⟩
  · exact (C10_canary_keeps_cursor _ (some 100) _
      ⟨"enwiki", "edit", "A", "c", 102, "canary"⟩ 100 0 (by decide)).1
  · exact (C10_canary_keeps_cursor [] none []
      ⟨"enwiki", "edit", "A", "c", 102, "canary"⟩ 100 (100 * 1000 + 2 * MINUTE + 1)
      (by decide)).2.2 (by decide)

/-- C3 counterexample: a stored cursor whose age is exactly 7 days.  It is
no older than 7 days in the sense of the claim, yet run() discards it and
resumes from now, because the code requires the cursor to be strictly
inside the window. -/
theorem C3_counterexample :
    resumePoint false (some 0) (7 * DAY) = 7 * DAY
    ∧ claimResume false (some 0) (7 * DAY) = 0
    ∧ resumePoint false (some 0) (7 * DAY) ≠ claimResume false (some 0) (7 * DAY) := by
  refine ⟨by decide, by decide, by decide⟩

/-- C3 (amended): the resume point equals the stored cursor exactly when
the cursor is valid, strictly younger than 7 days at restart time, and no
fresh start was requested; in every other case it is the current time. -/
theorem C3_resume_policy (fromNow : Bool) (storedSec : Option Int) (nowMs : Int) :
    resumePoint fromNow storedSec nowMs = claimResumeStrict fromNow storedSec nowMs := by
  cases storedSec with
  | none => rfl
  | some ts =>
    simp only [resumePoint, claimResumeStrict]
    by_cases hc : fromNow = false ∧ nowMs - 7 * DAY < ts * 1000
    · rw [if_pos hc, if_pos ⟨hc.1, by linarith [hc.2]⟩]
    · rw [if_neg hc, if_neg (fun h2 => hc ⟨h2.1, by linarith [h2.2]⟩)]

/-- C4 counterexample: a specification with an empty name and callable
filter and worker.  The claim says validation excludes it; validate only
logs the missing name and keeps the route in the active set. -/
theorem C4_counterexample :
    activeRoutes [⟨"", true, true, true⟩] = [⟨"", true, true, true⟩]
    ∧ claimActiveRoutes [⟨"", true, true, true⟩] = []
    ∧ validateLogsName ⟨"", true, true, true⟩ = true := by
  refine ⟨by decide, by decide, by decide⟩

/-- C4 (amended): a specification is retained in the active route set
exactly when its filter and worker are callable; an empty name is logged
as an error but does not exclude the specification, and validation never
aborts startup. -/
theorem C4_active_routes (r : RouteFields) (rs : List RouteFields) :
    r ∈ activeRoutes rs ↔ r ∈ rs ∧ r.filterFn = true ∧ r.workerFn = true := by
  simp [activeRoutes, List.mem_filter, validateKeeps, Bool.and_eq_true, and_assoc]

/-- Invariant tying the open connection set to the stream variable: the
open connections are exactly the current stream, and every assigned
connection id is below the fresh supply. -/
def connInv (s : ConnState) : Prop :=
  (s.live = match s.stream with | some c => [c] | none => [])
  ∧ (∀ c, s.stream = some c → c < s.nextId)

/-- The initial state satisfies the connection invariant. -/
lemma connInv_init : connInv initConn := by
  constructor
  · rfl
  · intro c h
    simp [initConn] at h

/-- One invocation of run() preserves the connection invariant: the
pre-existing connection is closed before the new one is opened. -/
lemma connInv_step (s : ConnState) (h : connInv s) : connInv (runStep s) := by
  obtain ⟨hl, hf⟩ := h
  cases hs : s.stream with
  | none =>
    rw [hs] at hl
    constructor
    · simp [runStep, hs, hl]
    · intro c hc
      simp [runStep, hs] at hc ⊢
      omega
  | some c0 =>
    rw [hs] at hl
    constructor
    · simp [runStep, hs, hl, List.erase_cons]
    · intro c hc
      simp [runStep, hs] at hc ⊢
      omega

/-- The connection invariant holds after any number of run() steps. -/
lemma connInv_iterate (n : Nat) : connInv (runStep^[n] initConn) := by
  induction n with
  | zero => exact connInv_init
  | succ k ih =>
    rw [Function.iterate_succ_apply']
    exact connInv_step _ ih

/-- C6: after any sequence of run() invocations (initial start, rate-limit
restart, health-monitor restart all go through start into run) at most one
connection is open, and the connection that was current before a further
run() invocation is no longer open after it: run closes the pre-existing
connection before opening the new one. -/
theorem C6_single_connection (n : Nat) :
    ((runStep^[n] initConn).live.length ≤ 1)
    ∧ (∀ c, (runStep^[n] initConn).stream = some c →
        c ∉ (runStep (runStep^[n] initConn)).live) := by
  obtain ⟨hl, hf⟩ := connInv_iterate n
  constructor
  · rw [hl]
    cases (runStep^[n] initConn).stream <;> simp
  · intro c hc
    have hcn := hf c hc
    simp [runStep, hc, hl, List.erase_cons]
    omega

/-- Witness for C6: after the first connection is opened, a second run()
invocation closes it; connection 0 is not open afterwards. -/
theorem C6_witness : 0 ∉ (runStep (runStep^[1] initConn)).live :=
  (C6_single_connection 1).2 0 (by decide)

/-- C7 counterexample: with the stored last-seen time at 0 s, a grace
period of 2 minutes and ticks every 2 minutes at 120 s and 240 s, a
silence of 121 s (events resume at 121 s, ahead of the second tick)
exceeds the grace period but fires no restart at all; and a stall that
persists through ticks at 120 s, 240 s and 360 s fires two restarts.  In
neither case is exactly one restart triggered. -/
theorem C7_counterexample :
    ((121 : Int) * 1000 > 2 * MINUTE)
    ∧ fireCount [(120000, 0), (240000, 121)] = 0
    ∧ fireCount [(120000, 0), (240000, 0), (360000, 0)] = 2 := by
  refine ⟨by decide, by decide, by decide⟩

/-- C7 (amended): a tick fires exactly when the current time strictly
exceeds the last-seen time plus the 2-minute grace period, and a silence
window that exceeds the grace period by at most one check interval
receives at most one firing tick (two distinct ticks of the same periodic
schedule cannot both fall in it); whether one tick or none falls in the
window depends on the tick alignment, and a longer stall fires once per
tick. -/
theorem C7_at_most_one_restart (L t0 I ε k₁ k₂ : Int)
    (hI : 0 < I) (hε : ε ≤ I)
    (h₁ : healthTickFires L (t0 + k₁ * I) = true)
    (h₁w : t0 + k₁ * I ≤ L * 1000 + 2 * MINUTE + ε)
    (h₂ : healthTickFires L (t0 + k₂ * I) = true)
    (h₂w : t0 + k₂ * I ≤ L * 1000 + 2 * MINUTE + ε) :
    k₁ = k₂ := by
  simp only [healthTickFires, decide_eq_true_eq] at h₁ h₂
  by_contra hne
  rcases lt_or_gt_of_ne hne with hlt | hlt
  · have hd : 1 ≤ k₂ - k₁ := by omega
    have hmul : I ≤ (k₂ - k₁) * I := le_mul_of_one_le_left (le_of_lt hI) hd
    have hexp : t0 + k₂ * I = (t0 + k₁ * I) + (k₂ - k₁) * I := by ring
    linarith
  · have hd : 1 ≤ k₁ - k₂ := by omega
    have hmul : I ≤ (k₁ - k₂) * I := le_mul_of_one_le_left (le_of_lt hI) hd
    have hexp : t0 + k₁ * I = (t0 + k₂ * I) + (k₁ - k₂) * I := by ring
    linarith

/-- Witness for C7: a concrete schedule with last seen at 0 s, ticks
500 ms + k times 2 minutes, a window exceeding the grace by 1 s: the tick
at 120.5 s fires inside the window and is the only one. -/
theorem C7_witness : (1 : Int) = 1 ∧ healthTickFires 0 (500 + 1 * 120000) = true :=
  ⟨C7_at_most_one_restart 0 500 120000 1000 1 1 (by decide) (by decide)
      (by decide) (by decide) (by decide) (by decide),
    by decide⟩

/-- C8 counterexample: an error event of type error with no message but
with status 429.  The claim routes it to the rate-limited branch (5 s
backoff then restart); the code recognizes it as the benign periodic
disconnect first and returns without logging or restarting. -/
theorem C8_counterexample :
    onError ⟨"error", none, some 429⟩ = ⟨false, none⟩
    ∧ claimOnError ⟨"error", none, some 429⟩ = ⟨true, some (5 * SECOND)⟩
    ∧ onError ⟨"error", none, some 429⟩ ≠ claimOnError ⟨"error", none, some 429⟩ := by
  refine ⟨by decide, by decide, by decide⟩

/-- C8 (amended): the benign-disconnect test is applied first: an error
event of type error carrying no message triggers neither logging nor
restart, even when it carries status 429; any other event is logged, and
is followed by a restart after a fixed 5-second backoff exactly when its
status is 429. -/
theorem C8_error_policy (evt : ErrorEvent) :
    (evt.etype = "error" ∧ evt.message = none → onError evt = ⟨false, none⟩)
    ∧ (¬(evt.etype = "error" ∧ evt.message = none) →
        (onError evt).logged = true
        ∧ (onError evt).restartDelayMs =
            (if evt.status = some 429 then some (5 * SECOND) else none)) := by
  constructor
  · intro h
    simp [onError, h]
  · intro h
    simp [onError, h]

/-- Witness for C8: the benign event is ignored, and a rate-limited error
with a message restarts after 5 seconds. -/
theorem C8_witness :
    onError ⟨"error", none, none⟩ = ⟨false, none⟩
    ∧ (onError ⟨"error", some "429 Too Many Requests", some 429⟩).restartDelayMs
        = some (5 * SECOND) :=
  ⟨(C8_error_policy ⟨"error", none, none⟩).1 ⟨rfl, rfl⟩,
    (((C8_error_policy ⟨"error", some "429 Too Many Requests", some 429⟩).2
      (by decide)).2).trans (by decide)⟩

/-- The lazy group of the pattern captures the shortest run of
non-line-terminator characters after which the continuation matches: if no
position strictly inside t lets the continuation match, the scan stops
exactly at the end of t. -/
lemma lazyScan_shortest (term rest : List Char) (b : Bool)
    (hterm : (term = addedTerm ∧ b = true) ∨ (term = removedTerm ∧ b = false))
    (t : List Char)
    (hclean : ∀ c ∈ t, isLineTerm c = false)
    (hmin : ∀ i, i < t.length →
        leadsWith addedTerm ((t ++ term ++ rest).drop i) = false
        ∧ leadsWith removedTerm ((t ++ term ++ rest).drop i) = false) :
    lazyScan (t ++ term ++ rest) = some (t, b) := by
  induction t with
  | nil =>
    rcases hterm with ⟨hA, hb⟩ | ⟨hR, hb⟩
    · subst hA hb
      rfl
    · subst hR hb
      rfl
  | cons c t' ih =>
    have h0 := hmin 0 (by simp)
    simp only [List.drop_zero, List.cons_append, List.append_assoc] at h0
    have hc : isLineTerm c = false := hclean c (by simp)
    have ih' := ih (fun d hd => hclean d (by simp [hd]))
      (fun i hi => by
        have hstep := hmin (i + 1) (by simpa using Nat.succ_lt_succ hi)
        simpa using hstep)
    simp only [List.cons_append, List.append_assoc] at ih' ⊢
    rw [lazyScan]
    simp [h0.1, h0.2, hc, ih']

/-- Appending the empty string on the right is the identity. -/
lemma string_append_empty (s : String) : s ++ "" = s := by
  cases s with
  | mk l =>
    show String.mk (l ++ []) = String.mk l
    rw [List.append_nil]

/-- C9 (amended): for a title with no line terminator at which the
continuation of the pattern does not already match earlier (the lazy group
takes the shortest match), a comment of the shape open brackets, colon,
title, close brackets, added yields title with added true and removed
false; the same shape with removed yields removed true; and a categorize
event whose comment does not match contributes no category note to the
routing-decision log line. -/
theorem C9_category_extraction :
    (∀ (t rest : List Char),
      (∀ c ∈ t, isLineTerm c = false) →
      (∀ i, i < t.length →
          leadsWith addedTerm ((t ++ addedTerm ++ rest).drop i) = false
          ∧ leadsWith removedTerm ((t ++ addedTerm ++ rest).drop i) = false) →
      pageFromCategoryEvent (String.mk ("[[:".toList ++ (t ++ addedTerm ++ rest))) =
        some ⟨String.mk t, true, false⟩)
    ∧ (∀ (t rest : List Char),
      (∀ c ∈ t, isLineTerm c = false) →
      (∀ i, i < t.length →
          leadsWith addedTerm ((t ++ removedTerm ++ rest).drop i) = false
          ∧ leadsWith removedTerm ((t ++ removedTerm ++ rest).drop i) = false) →
      pageFromCategoryEvent (String.mk ("[[:".toList ++ (t ++ removedTerm ++ rest))) =
        some ⟨String.mk t, false, true⟩)
    ∧ (∀ (n : String) (e : MEvent), e.etype = "categorize" →
        pageFromCategoryEvent e.comment = none →
        addToRouterLog n e = "Routing to " ++ n ++ ": " ++ e.title ++ "@" ++ e.wiki) := by
  refine ⟨?_, ?_, ?_⟩
  · intro t rest hclean hmin
    have hl := lazyScan_shortest addedTerm rest true (Or.inl ⟨rfl, rfl⟩) t hclean hmin
    have hpage : pageFromCategoryEvent (String.mk ("[[:".toList ++ (t ++ addedTerm ++ rest))) =
        (match lazyScan (t ++ addedTerm ++ rest) with
         | some (u, b) => some (⟨String.mk u, b, !b⟩ : CatMatch)
         | none => none) := rfl
    rw [hpage, hl]
    rfl
  · intro t rest hclean hmin
    have hl2 := lazyScan_shortest removedTerm rest false (Or.inr ⟨rfl, rfl⟩) t hclean hmin
    have hpage : pageFromCategoryEvent (String.mk ("[[:".toList ++ (t ++ removedTerm ++ rest))) =
        (match lazyScan (t ++ removedTerm ++ rest) with
         | some (u, b) => some (⟨String.mk u, b, !b⟩ : CatMatch)
         | none => none) := rfl
    rw [hpage, hl2]
    rfl
  · intro n e h1 h2
    have hlog : addToRouterLog n e =
        "Routing to " ++ n ++ ": " ++ "" ++ e.title ++ "@" ++ e.wiki := by
      simp [addToRouterLog, h1, h2]
    rw [hlog, string_append_empty]

/-- Witness for C9: the comment built from title Foo and the added
continuation is parsed back to title Foo with added true. -/
theorem C9_witness :
    pageFromCategoryEvent (String.mk ("[[:".toList ++ ("Foo".toList ++ addedTerm ++ []))) =
      some ⟨String.mk "Foo".toList, true, false⟩ :=
  C9_category_extraction.1 "Foo".toList [] (by decide) (by decide)

/-- C9 counterexample: the comment built from the title
A close-brackets removed and the added continuation.  The claim says it
parses to that full title with added true; the lazy group stops at the
first continuation, so the code returns title A with removed true. -/
theorem C9_counterexample :
    "[[:A]] removed]] added" =
      String.mk ("[[:".toList ++ ("A]] removed".toList ++ addedTerm ++ []))
    ∧ pageFromCategoryEvent "[[:A]] removed]] added" = some ⟨"A", false, true⟩
    ∧ (some (⟨"A", false, true⟩ : CatMatch) ≠ some ⟨"A]] removed", true, false⟩) := by
  refine ⟨by decide, by decide, by decide⟩

end EventstreamRouter
